import Mathlib

/-!
# brow-2-brow: identity derivation and the channel session layer

A shallow embedding of `src/key-manglage.js` (hex helpers, seeded identity
derivation) and of the session layer of `src/index.js` (start-up tables,
`sendMsg`, `openChannel`, `readChannel`, the `'whatever'` protocol handler).

Conventions of the embedding.

* A JavaScript string is a Lean `String`, read as its sequence of characters;
  `.length` and `.slice` count characters.
* A byte array (`Uint8Array`) is a `List Nat`; a store into it goes through
  `toUint8`.
* A numeric id is an `Int`.
* What the libraries outside the repository answer (key derivation, the
  random source, the dial, stream reads and writes, the text codec) is an
  explicit argument of the function that asks for it.
* What a function does to the outside world is returned as a list of
  `Effect`s, in program order.
-/

namespace Brow2Brow

/-! ## `key-manglage.js`: hex helpers -/

/-- The result of `n.toString(16)` for a non-negative integer `n`. -/
def numberToString16 (n : Nat) : String :=
  String.mk (Nat.toDigits 16 n)

/-- One turn of the `for` loop of `toHex`: `hex.length === 1 ? '0' + hex : hex`. -/
def hexPiece (b : Nat) : String :=
  let hex := numberToString16 b
  if hex.length = 1 then "0" ++ hex else hex

/-- The function `toHex(arr)`: the loop appends one piece per element to `result`. -/
def toHex (arr : List Nat) : String :=
  arr.foldl (fun result b => result ++ hexPiece b) ""

/-- White space as `parseInt` skips it (ECMAScript `StrWhiteSpaceChar`). -/
def isJSWhiteSpace (c : Char) : Bool :=
  decide (c.toNat ∈ [0x9, 0xA, 0xB, 0xC, 0xD, 0x20, 0xA0, 0x1680, 0x2028, 0x2029,
    0x202F, 0x205F, 0x3000, 0xFEFF]) || (decide (0x2000 ≤ c.toNat) && decide (c.toNat ≤ 0x200A))

/-- The value of a character as a digit of radix 16, `none` when it is not one. -/
def hexDigitVal (c : Char) : Option Nat :=
  if 48 ≤ c.toNat ∧ c.toNat ≤ 57 then some (c.toNat - 48)
  else if 97 ≤ c.toNat ∧ c.toNat ≤ 102 then some (c.toNat - 97 + 10)
  else if 65 ≤ c.toNat ∧ c.toNat ≤ 70 then some (c.toNat - 65 + 10)
  else none

/-- The values of the longest prefix of radix-16 digits. -/
def leadingHexDigits : List Char → List Nat
  | [] => []
  | c :: cs =>
    match hexDigitVal c with
    | some d => d :: leadingHexDigits cs
    | none => []

/-- Drops a leading `0x` or `0X`, as `parseInt` does for radix 16. -/
def stripHexPrefix : List Char → List Char
  | '0' :: 'x' :: cs => cs
  | '0' :: 'X' :: cs => cs
  | cs => cs

/-- Splits off a leading sign: the sign is negative exactly for `-`. -/
def splitSign : List Char → Bool × List Char
  | '-' :: cs => (true, cs)
  | '+' :: cs => (false, cs)
  | cs => (false, cs)

/-- The call `parseInt(s, 16)`; `none` stands for `NaN`. -/
def parseInt16 (s : String) : Option Int :=
  let trimmed := s.data.dropWhile isJSWhiteSpace
  let signed := splitSign trimmed
  let digits := leadingHexDigits (stripHexPrefix signed.2)
  if digits.isEmpty then none
  else
    let magnitude : Nat := digits.foldl (fun acc d => 16 * acc + d) 0
    some (if signed.1 then - (magnitude : Int) else (magnitude : Int))

/-- The conversion applied by a store into a `Uint8Array`: `NaN` becomes 0, an
integer is reduced modulo 256. -/
def toUint8 : Option Int → Nat
  | none => 0
  | some v => (v % 256).toNat

/-- The call `str.slice(a, b)` for indices `0 ≤ a`, `0 ≤ b`. -/
def jsSlice (str : String) (a b : Nat) : String :=
  String.mk ((str.data.drop a).take (b - a))

/-- The `while` loop of `fromHex`, by the number of turns still to run. A store
past the end of the typed array is ignored, as `List.set` does. -/
def fromHexLoop (str : String) : Nat → Nat → Nat → List Nat → List Nat
  | 0, _, _, bytes => bytes
  | turns + 1, inIdx, outIdx, bytes =>
    let digits := jsSlice str inIdx (inIdx + 2)
    fromHexLoop str turns (inIdx + 2) (outIdx + 1)
      (bytes.set outIdx (toUint8 (parseInt16 digits)))

/-- The function `fromHex(str)`. For an odd `len`, `resultLen` is `len / 2` with a
fractional half: `new Uint8Array(resultLen)` has `⌊len / 2⌋` elements and the
test `outIdx < resultLen` lets the loop run `⌈len / 2⌉` turns. -/
def fromHex (str : String) : List Nat :=
  let len := str.length
  let bytes := List.replicate (len / 2) 0
  fromHexLoop str ((len + 1) / 2) 0 0 bytes

/-- A lowercase hexadecimal digit: `0`..`9` or `a`..`f`. -/
def isLowerHexDigit (c : Char) : Bool :=
  (decide (48 ≤ c.toNat) && decide (c.toNat ≤ 57)) ||
    (decide (97 ≤ c.toNat) && decide (c.toNat ≤ 102))

/-! ## `key-manglage.js`: seeded identity derivation -/

/-- The seed chosen by `generatePeerId`, with a flag that records whether
`getRandomValues` was called. -/
structure SeedChoice where
  seed : List Nat
  usedRandom : Bool
  deriving DecidableEq, Repr

/-- The first half of `generatePeerId(localId)`: the choice of the seed. `rnd` is
what `globalThis.crypto.getRandomValues(new Uint8Array(32))` would return. -/
def chooseSeed (rnd : List Nat) (localId : Int) : SeedChoice :=
  if localId < 1 ∨ 255 < localId then
    { seed := rnd, usedRandom := true }
  else
    { seed := (List.replicate 32 0).set 0 (toUint8 (some localId)), usedRandom := false }

/-- A peer identity object. `ref` is the identity of the object itself (what a
`Map` compares when the object is a key), `str` is what `toString()` returns. -/
structure PeerId where
  ref : Nat
  str : String
  deriving DecidableEq, Repr

/-- The function `generatePeerId(localId)`. `derive` stands for the key derivation
`generateKeyPairFromSeed`, `peerIdFromKeys` and the identity's `toString`, a
function of the seed; `ref` is the identity of the object it allocates. -/
def generatePeerId (derive : List Nat → String) (rnd : List Nat) (ref : Nat)
    (localId : Int) : PeerId :=
  { ref := ref, str := derive (chooseSeed rnd localId).seed }

/-! ## `index.js`: start-up tables -/

/-- What `peerIdList[id]` can be: `undefined` outside the array, `null` in slot 0,
a peer identity object in slots 1 to 255. -/
inductive Slot where
  | undefined
  | null
  | peer (p : PeerId)
  deriving DecidableEq, Repr

/-- The text of a slot inside a template string. -/
def Slot.text : Slot → String
  | Slot.undefined => "undefined"
  | Slot.null => "null"
  | Slot.peer p => p.str

/-- The method `Map.prototype.set`: the value of a key already present is
replaced in place, a new key goes to the end. -/
def mapSet {K V : Type} [DecidableEq K] : List (K × V) → K → V → List (K × V)
  | [], k, v => [(k, v)]
  | (k', v') :: rest, k, v =>
    if k' = k then (k, v) :: rest else (k', v') :: mapSet rest k v

/-- The method `Map.prototype.get`; `none` stands for `undefined`. -/
def mapGet {K V : Type} [DecidableEq K] : List (K × V) → K → Option V
  | [], _ => none
  | (k', v') :: rest, k => if k' = k then some v' else mapGet rest k

/-- The assignment `arr[i] = v` on an array: inside the array it replaces, past
the end it extends the array (the gap reads as `undefined`). -/
def arraySet (arr : List Slot) (i : Nat) (v : Slot) : List Slot :=
  if i < arr.length then arr.set i v
  else arr ++ List.replicate (i - arr.length) Slot.undefined ++ [v]

/-- The read `arr[id]` for an integer `id`. -/
def arrayGet (arr : List Slot) (id : Int) : Slot :=
  if 0 ≤ id then arr.getD id.toNat Slot.undefined else Slot.undefined

/-- The two tables built when `App` starts. -/
structure Tables where
  peerIdList : List Slot
  idMap : List (String × Int)
  deriving DecidableEq, Repr

/-- The state after `peerIdList[0] = null` and `n` turns of the start-up loop
`for (let i = 1; i < 256; ++i)`. The object made in turn `i` has identity `i`;
`rnd i` is what the random source would answer in that turn. -/
def startupLoop (derive : List Nat → String) (rnd : Nat → List Nat) : Nat → Tables
  | 0 => { peerIdList := arraySet [] 0 Slot.null, idMap := [] }
  | n + 1 =>
    let t := startupLoop derive rnd n
    let i := n + 1
    let peerId := generatePeerId derive (rnd i) i (i : Int)
    { peerIdList := arraySet t.peerIdList i (Slot.peer peerId)
      idMap := mapSet t.idMap peerId.str (i : Int) }

/-- The tables once the loop has left: 255 turns. -/
def startup (derive : List Nat → String) (rnd : Nat → List Nat) : Tables :=
  startupLoop derive rnd 255

/-! ## `index.js`: the session layer -/

/-- A value used as a key of `activeChannels`. Objects are compared by identity. -/
inductive Key where
  | undefined
  | null
  | num (n : Int)
  | obj (ref : Nat)
  deriving DecidableEq, Repr

/-- The key that a slot value is when passed to `activeChannels.set`. -/
def Slot.key : Slot → Key
  | Slot.undefined => Key.undefined
  | Slot.null => Key.null
  | Slot.peer p => Key.obj p.ref

/-- The object `{ msgStream, id }`; `msgStream` names the wrapped stream. -/
structure Channel where
  msgStream : Nat
  id : Int
  deriving DecidableEq, Repr

/-- The table `activeChannels`. -/
abbrev Table := List (Key × Channel)

/-- An error object caught by a `catch`: its text inside a template string and
the two fields that `readChannel` inspects. -/
structure Problem where
  text : String
  errorDetail : Option String
  sctpCauseCode : Option Int
  deriving DecidableEq, Repr

/-- What the session layer does to the outside world. -/
inductive Effect where
  | line (text : String)
  | dialProtocol (addr : String) (protocol : String)
  | startRead (channel : Channel)
  | write (stream : Nat) (bytes : List Nat)
  deriving DecidableEq, Repr

/-- The closure of `App` that the session functions see. `fromString` and
`toString` are the text codec imported from `uint8arrays`. -/
structure Env where
  peerIdList : List Slot
  idMap : List (String × Int)
  relayAddr : String
  fromString : String → List Nat
  toString : List Nat → String

def RELAY_ID : Int := 200

def RELAY_HOST : String := "/dns4/troll.fudco.com"

/-- The closure after start-up: the two tables and `relayAddr`. -/
def App (derive : List Nat → String) (rnd : Nat → List Nat)
    (fromString : String → List Nat) (toStr : List Nat → String) : Env :=
  let t := startup derive rnd
  let relayPeerId := arrayGet t.peerIdList RELAY_ID
  { peerIdList := t.peerIdList
    idMap := t.idMap
    relayAddr := RELAY_HOST ++ "/tcp/9001/ws/p2p/" ++ relayPeerId.text
    fromString := fromString
    toString := toStr }

/-- The function `outputLine(text)`: one line appended to the message pane. -/
def outputLine (text : String) : List Effect :=
  [Effect.line text]

/-- The function `outputMsg(id, msg)`. -/
def outputMsg (id : Int) (msg : String) : List Effect :=
  outputLine (toString id ++ ":: \x27" ++ msg ++ "\x27")

/-- The function `outputError(id, task, problem)`; `none` is a call without the
third argument. A caught error object is truthy. -/
def outputError (id : Int) (task : String) (problem : Option Problem) : List Effect :=
  match problem with
  | some p => outputLine (toString id ++ ":: error " ++ task ++ ": " ++ p.text)
  | none => outputLine (toString id ++ ":: error " ++ task)

/-- The function `receiveMsg(id, msg)`. -/
def receiveMsg (id : Int) (msg : String) : List Effect :=
  outputMsg id msg

def SCTP_USER_INITIATED_ABORT : Int := 12

/-- The answer of one `channel.msgStream.read()`. -/
inductive ReadResult where
  | frame (buf : List Nat)
  | failure (problem : Problem)
  deriving DecidableEq, Repr

/-- What a run of the read loop did, and whether it has returned (`false`: it is
waiting for the next read). -/
structure LoopResult where
  effects : List Effect
  returned : Bool
  deriving DecidableEq, Repr

/-- The function `readChannel(channel)` against the answers that the stream gives
to its successive reads. -/
def readChannel (env : Env) (channel : Channel) : List ReadResult → LoopResult
  | [] => { effects := [], returned := false }
  | ReadResult.failure problem :: _ =>
    if problem.errorDetail = some "sctp-failure" ∧
        problem.sctpCauseCode = some SCTP_USER_INITIATED_ABORT then
      { effects := outputLine (toString channel.id ++ ":: remote disconnected")
        returned := true }
    else
      { effects := outputError channel.id "reading message" (some problem)
        returned := true }
  | ReadResult.frame buf :: rest =>
    let later := readChannel env channel rest
    { effects := receiveMsg channel.id (env.toString buf) ++ later.effects
      returned := later.returned }

/-- What the transport answers to one `openChannel`: `multiaddr` may throw on the
address; otherwise `dialProtocol` rejects (`aborted` is `signal.aborted` when the
rejection is caught) or resolves with a stream. -/
inductive DialOutcome where
  | addrThrows (problem : Problem)
  | rejected (aborted : Bool) (problem : Problem)
  | resolved (stream : Nat)
  deriving DecidableEq, Repr

/-- How an `async` function ends: it returns a value or it throws. -/
inductive Completion (α : Type) where
  | returned (value : α)
  | thrown (problem : Problem)
  deriving DecidableEq, Repr

/-- The outcome of `openChannel`: the table, the effects and the completion; a
returned `none` is `null`. -/
structure OpenResult where
  table : Table
  effects : List Effect
  result : Completion (Option Channel)
  deriving DecidableEq, Repr

/-- The function `openChannel(id)`. -/
def openChannel (env : Env) (activeChannels : Table) (id : Int) (out : DialOutcome) :
    OpenResult :=
  let peerId := arrayGet env.peerIdList id
  let announce := outputLine ("connecting to id:" ++ toString id ++ " peerId:" ++ peerId.text)
  let connectToAddr := env.relayAddr ++ "/p2p-circuit/webrtc/p2p/" ++ peerId.text
  match out with
  | DialOutcome.addrThrows problem =>
    { table := activeChannels, effects := announce, result := Completion.thrown problem }
  | DialOutcome.rejected aborted problem =>
    let report :=
      if aborted then outputError id ("timed out opening channel to " ++ peerId.text) none
      else outputError id ("opening channel to " ++ peerId.text) (some problem)
    { table := activeChannels
      effects := announce ++ [Effect.dialProtocol connectToAddr "whatever"] ++ report
      result := Completion.returned none }
  | DialOutcome.resolved stream =>
    let channel : Channel := { msgStream := stream, id := id }
    { table := mapSet activeChannels peerId.key channel
      effects := announce ++ [Effect.dialProtocol connectToAddr "whatever"]
      result := Completion.returned (some channel) }

/-- The `TypeError` raised by `channel.msgStream` when `channel` is `null` (the
text is the one V8 gives). -/
def nullChannelError : Problem :=
  { text := "TypeError: Cannot read properties of null (reading \x27msgStream\x27)"
    errorDetail := none
    sctpCauseCode := none }

/-- The statement `readChannel(channel).catch(() => {})` of `sendMsg`: the loop
is started and not awaited. On `null` the loop throws a `TypeError` from its own
`catch` block (`channel.id`) before any output, and the rejection is dropped. -/
def startReadLoop : Option Channel → List Effect
  | none => []
  | some channel => [Effect.startRead channel]

/-- The last `try` of `sendMsg`: the write, and the report when it throws.
`writeFails` is the error of the write when the stream refuses it. -/
def writeMessage (env : Env) (id : Int) (channel : Option Channel) (msg : String)
    (writeFails : Option Problem) : List Effect :=
  match channel with
  | none => outputError id "sending message" (some nullChannelError)
  | some ch =>
    Effect.write ch.msgStream (env.fromString msg) ::
      (match writeFails with
        | none => []
        | some problem => outputError id "sending message" (some problem))

/-- The outcome of `sendMsg`: the table and the effects. -/
structure SendResult where
  table : Table
  effects : List Effect
  deriving DecidableEq, Repr

/-- The function `sendMsg(id, msg)`. `out` is the transport's answer if the
function opens a channel. -/
def sendMsg (env : Env) (activeChannels : Table) (id : Int) (msg : String)
    (out : DialOutcome) (writeFails : Option Problem) : SendResult :=
  match mapGet activeChannels (Key.num id) with
  | some channel =>
    { table := activeChannels
      effects := writeMessage env id (some channel) msg writeFails }
  | none =>
    let opened := openChannel env activeChannels id out
    match opened.result with
    | Completion.thrown problem =>
      { table := opened.table
        effects := opened.effects ++ outputError id "opening connection" (some problem) }
    | Completion.returned channel =>
      { table := opened.table
        effects := opened.effects ++ startReadLoop channel ++
          writeMessage env id channel msg writeFails }

/-- The outcome of the protocol handler: the table, the channel it made, the
effects, and whether the handler has returned. -/
structure HandlerResult where
  table : Table
  channel : Channel
  effects : List Effect
  returned : Bool
  deriving DecidableEq, Repr

/-- The handler registered by `libp2p.handle(..)`, for an inbound
`stream` on a connection whose `remotePeer` is the given object. -/
def handleWhatever (env : Env) (activeChannels : Table) (remotePeer : PeerId)
    (stream : Nat) (reads : List ReadResult) : HandlerResult :=
  let peerId := remotePeer
  let id := (mapGet env.idMap peerId.str).getD (-1)
  let announce :=
    outputLine ("inbound connection from id:" ++ toString id ++ " peerId:" ++ peerId.str)
  let channel : Channel := { msgStream := stream, id := id }
  let loop := readChannel env channel reads
  { table := mapSet activeChannels (Key.obj peerId.ref) channel
    channel := channel
    effects := announce ++ loop.effects
    returned := loop.returned }

/-- One thing that changes `activeChannels`: a call of `openChannel`, or an inbound
stream given to the handler. -/
inductive Event where
  | opened (id : Int) (out : DialOutcome)
  | inbound (remotePeer : PeerId) (stream : Nat) (reads : List ReadResult)
  deriving DecidableEq, Repr

/-- The table after one event. -/
def step (env : Env) (activeChannels : Table) : Event → Table
  | Event.opened id out => (openChannel env activeChannels id out).table
  | Event.inbound remotePeer stream reads =>
    (handleWhatever env activeChannels remotePeer stream reads).table

/-- The table reached from the empty one by a sequence of events. -/
def run (env : Env) (events : List Event) : Table :=
  events.foldl (step env) []

/-- The number of entries of the table whose channel has the given id. -/
def entriesWithId (activeChannels : Table) (id : Int) : Nat :=
  (activeChannels.filter (fun e => decide (e.2.id = id))).length

/-! ## Definitions used by the statements -/

/-- The characters that `toHex` produces, element by element. -/
def hexChars : List Nat → List Char
  | [] => []
  | b :: rest => (hexPiece b).data ++ hexChars rest

/-- The identity string of slot `i`, for `i` in 1..255. -/
def slotString (derive : List Nat → String) (i : Nat) : String :=
  derive (i :: List.replicate 31 0)

/-- The peer identity object under which an event stores its channel, when it
stores one under an object: the slot object for a dial that resolved, the
connection's `remotePeer` for an inbound stream. -/
def eventObject (env : Env) : Event → Option PeerId
  | Event.opened id (DialOutcome.resolved _) =>
    match arrayGet env.peerIdList id with
    | Slot.peer p => some p
    | _ => none
  | Event.opened _ _ => none
  | Event.inbound remotePeer _ _ => some remotePeer

/-- The peer identity objects that a sequence of events uses as keys. -/
def keyObjects (env : Env) (events : List Event) : List PeerId :=
  events.filterMap (eventObject env)

/-- A closure for worked examples: the hex form of the seed stands for the
identity string, one character per byte stands for the text codec. -/
def sampleEnv : Env :=
  App toHex (fun _ => []) (fun s => s.data.map Char.toNat) (fun b => String.mk (b.map Char.ofNat))

/-- A read error that carries abort-cause code 12 without being an SCTP failure. -/
def code12Problem : Problem :=
  { text := "Error: closed", errorDetail := some "data-channel-failure", sctpCauseCode := some 12 }

/-- A read error of an SCTP failure with abort-cause code 12. -/
def abortProblem : Problem :=
  { text := "OperationError: aborted", errorDetail := some "sctp-failure", sctpCauseCode := some 12 }

/-! # Theorems -/

/-! ## Hex helpers: lemmas -/

theorem toHex_foldl_data (arr : List Nat) (acc : String) :
    (arr.foldl (fun result b => result ++ hexPiece b) acc).data = acc.data ++ hexChars arr := by
  induction arr generalizing acc with
  | nil => simp [hexChars]
  | cons b rest ih => simp [List.foldl_cons, ih, hexChars, String.data_append, List.append_assoc]

theorem toHex_data (arr : List Nat) : (toHex arr).data = hexChars arr := by
  unfold toHex
  rw [toHex_foldl_data]
  rfl

set_option maxRecDepth 100000 in
theorem hexPiece_byte : ∀ b < 256,
    (hexPiece b).data.length = 2 ∧ (hexPiece b).data.all isLowerHexDigit = true ∧
      toUint8 (parseInt16 (String.mk (hexPiece b).data)) = b := by
  decide

theorem hexChars_length (arr : List Nat) (h : ∀ b ∈ arr, b < 256) :
    (hexChars arr).length = 2 * arr.length := by
  induction arr with
  | nil => rfl
  | cons b rest ih =>
    have hb := (hexPiece_byte b (h b (List.mem_cons_self _ _))).1
    have hr := ih (fun x hx => h x (List.mem_cons_of_mem _ hx))
    simp only [hexChars, List.length_append, List.length_cons, hb, hr]
    omega

theorem hexChars_lower (arr : List Nat) (h : ∀ b ∈ arr, b < 256) :
    ∀ c ∈ hexChars arr, isLowerHexDigit c = true := by
  induction arr with
  | nil => intro c hc; simp [hexChars] at hc
  | cons b rest ih =>
    intro c hc
    simp only [hexChars, List.mem_append] at hc
    rcases hc with hc | hc
    · have hb := (hexPiece_byte b (h b (List.mem_cons_self _ _))).2.1
      exact List.all_eq_true.mp hb c hc
    · exact ih (fun x hx => h x (List.mem_cons_of_mem _ hx)) c hc

/-- The slice read in turn `k` of `fromHex` is the piece of element `k`. -/
theorem hexChars_slice (arr : List Nat) (h : ∀ b ∈ arr, b < 256) (k : Nat) (hk : k < arr.length) :
    ((hexChars arr).drop (2 * k)).take 2 = (hexPiece (arr.get ⟨k, hk⟩)).data := by
  induction arr generalizing k with
  | nil => simp at hk
  | cons b rest ih =>
    have hb := (hexPiece_byte b (h b (List.mem_cons_self _ _))).1
    cases k with
    | zero =>
      simp only [hexChars, Nat.mul_zero, List.drop_zero, List.get_eq_getElem, List.getElem_cons_zero]
      rw [List.take_append_of_le_length (by omega)]
      exact List.take_of_length_le (by omega)
    | succ j =>
      have hj : j < rest.length := by simpa using hk
      have := ih (fun x hx => h x (List.mem_cons_of_mem _ hx)) j hj
      simp only [hexChars, List.get_eq_getElem, List.getElem_cons_succ]
      rw [show 2 * (j + 1) = (hexPiece b).data.length + 2 * j by omega, List.drop_append]
      simpa using this

theorem take_set_same {α : Type} (l : List α) (i : Nat) (a : α) :
    (l.set i a).take i = l.take i := by
  induction l generalizing i with
  | nil => simp
  | cons x xs ih =>
    cases i with
    | zero => simp
    | succ j => simp [List.set_cons_succ, List.take_succ_cons, ih]

theorem fromHexLoop_toHex (arr : List Nat) (h : ∀ b ∈ arr, b < 256) :
    ∀ (turns outIdx : Nat) (bytes : List Nat), bytes.length = arr.length →
      outIdx + turns = arr.length →
      fromHexLoop (toHex arr) turns (2 * outIdx) outIdx bytes =
        bytes.take outIdx ++ arr.drop outIdx := by
  intro turns
  induction turns with
  | zero =>
    intro outIdx bytes hlen hsum
    have : outIdx = arr.length := by omega
    subst this
    simp [fromHexLoop, ← hlen]
  | succ t ih =>
    intro outIdx bytes hlen hsum
    have hk : outIdx < arr.length := by omega
    have hslice : jsSlice (toHex arr) (2 * outIdx) (2 * outIdx + 2) =
        String.mk (hexPiece (arr.get ⟨outIdx, hk⟩)).data := by
      unfold jsSlice
      rw [toHex_data, show 2 * outIdx + 2 - 2 * outIdx = 2 by omega, hexChars_slice arr h outIdx hk]
    have hval := (hexPiece_byte _ (h _ (List.get_mem arr outIdx hk))).2.2
    simp only [fromHexLoop]
    rw [hslice, hval, show 2 * outIdx + 2 = 2 * (outIdx + 1) by omega,
      ih (outIdx + 1) _ (by simpa using hlen) (by omega)]
    have hb : outIdx < bytes.length := by omega
    rw [List.take_succ, List.getElem?_set_self hb, List.drop_eq_getElem_cons hk]
    simp [take_set_same]

theorem toHex_length (arr : List Nat) (h : ∀ b ∈ arr, b < 256) :
    (toHex arr).length = 2 * arr.length := by
  rw [String.length, toHex_data, hexChars_length arr h]

theorem fromHex_toHex (arr : List Nat) (h : ∀ b ∈ arr, b < 256) :
    fromHex (toHex arr) = arr := by
  unfold fromHex
  simp only [toHex_length arr h]
  rw [show (2 * arr.length + 1) / 2 = arr.length by omega,
    show 2 * arr.length / 2 = arr.length by omega]
  have := fromHexLoop_toHex arr h arr.length 0 (List.replicate arr.length 0) (by simp) (by simp)
  simpa using this

/-- C10: for a byte array `arr`, `toHex(arr)` has `2 * arr.length` characters, all
lowercase hexadecimal digits, and `fromHex(toHex(arr))` is `arr` again. -/
theorem toHex_fromHex_roundtrip (arr : List Nat) (h : ∀ b ∈ arr, b < 256) :
    (toHex arr).length = 2 * arr.length ∧
      (∀ c ∈ (toHex arr).data, isLowerHexDigit c = true) ∧
      fromHex (toHex arr) = arr := by
  refine ⟨toHex_length arr h, ?_, fromHex_toHex arr h⟩
  rw [toHex_data]
  exact hexChars_lower arr h

theorem toHex_fromHex_roundtrip_witness :
    (∀ b ∈ [0, 9, 10, 171, 255], b < 256) ∧
      (toHex [0, 9, 10, 171, 255]).length = 2 * [0, 9, 10, 171, 255].length ∧
      (∀ c ∈ (toHex [0, 9, 10, 171, 255]).data, isLowerHexDigit c = true) ∧
      fromHex (toHex [0, 9, 10, 171, 255]) = [0, 9, 10, 171, 255] :=
  ⟨by decide, toHex_fromHex_roundtrip [0, 9, 10, 171, 255] (by decide)⟩

/-! ## `Map` lemmas -/

theorem mapGet_mapSet_self {K V : Type} [DecidableEq K] (m : List (K × V)) (k : K) (v : V) :
    mapGet (mapSet m k v) k = some v := by
  induction m with
  | nil => simp [mapSet, mapGet]
  | cons e rest ih =>
    obtain ⟨k', v'⟩ := e
    by_cases hk : k' = k
    · simp [mapSet, mapGet, hk]
    · simp [mapSet, mapGet, hk, ih]

theorem mapGet_mapSet_of_ne {K V : Type} [DecidableEq K] (m : List (K × V)) (k k' : K) (v : V)
    (hne : k ≠ k') : mapGet (mapSet m k v) k' = mapGet m k' := by
  induction m with
  | nil => simp [mapSet, mapGet, hne]
  | cons e rest ih =>
    obtain ⟨k0, v0⟩ := e
    by_cases hk : k0 = k
    · subst hk
      simp [mapSet, mapGet, hne]
    · by_cases hk' : k0 = k'
      · subst hk'
        simp [mapSet, mapGet, hk]
      · simp [mapSet, mapGet, hk, hk', ih]

theorem mem_of_mem_mapSet {K V : Type} [DecidableEq K] (m : List (K × V)) (k : K) (v : V)
    (e : K × V) (he : e ∈ mapSet m k v) : e = (k, v) ∨ e ∈ m := by
  induction m with
  | nil => simpa [mapSet] using he
  | cons e0 rest ih =>
    obtain ⟨k0, v0⟩ := e0
    by_cases hk : k0 = k
    · simp only [mapSet, hk, if_true, List.mem_cons] at he
      rcases he with he | he
      · exact Or.inl he
      · exact Or.inr (List.mem_cons_of_mem _ he)
    · simp only [mapSet, hk, if_false, List.mem_cons] at he
      rcases he with he | he
      · exact Or.inr (he ▸ List.mem_cons_self _ _)
      · rcases ih he with h | h
        · exact Or.inl h
        · exact Or.inr (List.mem_cons_of_mem _ h)

theorem mem_of_mapGet {K V : Type} [DecidableEq K] (m : List (K × V)) (k : K) (v : V)
    (h : mapGet m k = some v) : (k, v) ∈ m := by
  induction m with
  | nil => simp [mapGet] at h
  | cons e rest ih =>
    obtain ⟨k0, v0⟩ := e
    by_cases hk : k0 = k
    · simp only [mapGet, hk, if_true, Option.some.injEq] at h
      simp [hk, h]
    · simp only [mapGet, hk, if_false] at h
      exact List.mem_cons_of_mem _ (ih h)

theorem mapGet_eq_none_of_absent {K V : Type} [DecidableEq K] (m : List (K × V)) (k : K)
    (h : ∀ e ∈ m, e.1 ≠ k) : mapGet m k = none := by
  cases hg : mapGet m k with
  | none => rfl
  | some v => exact absurd rfl (h _ (mem_of_mapGet m k v hg))

theorem mapSet_length_of_absent {K V : Type} [DecidableEq K] (m : List (K × V)) (k : K) (v : V)
    (h : ∀ e ∈ m, e.1 ≠ k) : (mapSet m k v).length = m.length + 1 := by
  induction m with
  | nil => simp [mapSet]
  | cons e rest ih =>
    obtain ⟨k0, v0⟩ := e
    have hk : k0 ≠ k := h (k0, v0) (List.mem_cons_self _ _)
    simp [mapSet, hk, ih (fun e he => h e (List.mem_cons_of_mem _ he))]

/-! ## Seeds and start-up: lemmas -/

theorem chooseSeed_inRange (rnd : List Nat) (id : Int) (h1 : 1 ≤ id) (h2 : id ≤ 255) :
    chooseSeed rnd id = { seed := id.toNat :: List.replicate 31 0, usedRandom := false } := by
  have hcond : ¬ (id < 1 ∨ 255 < id) := by omega
  have hmod : id % 256 = id := Int.emod_eq_of_lt (by omega) (by omega)
  simp [chooseSeed, hcond, toUint8, hmod, List.replicate_succ]

theorem seed_isBuffer (i : Nat) (h2 : i ≤ 255) :
    (i :: List.replicate 31 0).length = 32 ∧ ∀ b ∈ i :: List.replicate 31 0, b < 256 := by
  refine ⟨by simp, ?_⟩
  intro b hb
  simp only [List.mem_cons, List.mem_replicate] at hb
  rcases hb with hb | hb
  · omega
  · omega

theorem generatePeerId_slot (derive : List Nat → String) (rnd : List Nat) (i : Nat)
    (h1 : 1 ≤ i) (h2 : i ≤ 255) :
    generatePeerId derive rnd i (i : Int) = { ref := i, str := slotString derive i } := by
  simp [generatePeerId, chooseSeed_inRange rnd (i : Int) (by omega) (by omega), slotString]

/-- Every entry of `idMap` maps the identity string of a slot to that slot. -/
theorem startupLoop_idMap_entries (derive : List Nat → String) (rnd : Nat → List Nat) (n : Nat)
    (hn : n ≤ 255) :
    ∀ e ∈ (startupLoop derive rnd n).idMap,
      ∃ i : Nat, 1 ≤ i ∧ i ≤ n ∧ e = (slotString derive i, (i : Int)) := by
  induction n with
  | zero => intro e he; simp [startupLoop] at he
  | succ n ih =>
    intro e he
    simp only [startupLoop, generatePeerId_slot derive (rnd (n + 1)) (n + 1) (by omega) hn] at he
    rcases mem_of_mem_mapSet _ _ _ _ he with h | h
    · exact ⟨n + 1, by omega, le_refl _, h⟩
    · obtain ⟨i, h1, h2, h3⟩ := ih (by omega) e h
      exact ⟨i, h1, by omega, h3⟩

theorem startupLoop_peerIdList (derive : List Nat → String) (rnd : Nat → List Nat) (n : Nat)
    (hn : n ≤ 255) :
    (startupLoop derive rnd n).peerIdList.length = n + 1 ∧
      ∀ i : Nat, 1 ≤ i → i ≤ n →
        (startupLoop derive rnd n).peerIdList.getD i Slot.undefined =
          Slot.peer { ref := i, str := slotString derive i } := by
  induction n with
  | zero =>
    refine ⟨by simp [startupLoop, arraySet], ?_⟩
    intro i h1 h2
    omega
  | succ n ih =>
    obtain ⟨hlen, hget⟩ := ih (by omega)
    simp only [startupLoop, generatePeerId_slot derive (rnd (n + 1)) (n + 1) (by omega) hn]
    have hset : arraySet (startupLoop derive rnd n).peerIdList (n + 1)
        (Slot.peer { ref := n + 1, str := slotString derive (n + 1) }) =
        (startupLoop derive rnd n).peerIdList ++
          [Slot.peer { ref := n + 1, str := slotString derive (n + 1) }] := by
      simp [arraySet, hlen]
    rw [hset]
    refine ⟨by simp [hlen], ?_⟩
    intro i h1 h2
    by_cases hi : i ≤ n
    · rw [List.getD_append _ _ _ _ (by omega)]
      exact hget i h1 hi
    · have : i = n + 1 := by omega
      subst this
      rw [List.getD_append_right _ _ _ _ (by omega)]
      simp [hlen]

theorem startupLoop_idMap_get (derive : List Nat → String) (rnd : Nat → List Nat)
    (hinj : ∀ i j : Nat, 1 ≤ i → i ≤ 255 → 1 ≤ j → j ≤ 255 →
      derive (i :: List.replicate 31 0) = derive (j :: List.replicate 31 0) → i = j)
    (n : Nat) (hn : n ≤ 255) :
    (startupLoop derive rnd n).idMap.length = n ∧
      ∀ i : Nat, 1 ≤ i → i ≤ n →
        mapGet (startupLoop derive rnd n).idMap (slotString derive i) = some (i : Int) := by
  induction n with
  | zero =>
    refine ⟨by simp [startupLoop], ?_⟩
    intro i h1 h2
    omega
  | succ n ih =>
    obtain ⟨hlen, hget⟩ := ih (by omega)
    simp only [startupLoop, generatePeerId_slot derive (rnd (n + 1)) (n + 1) (by omega) hn]
    have habsent : ∀ e ∈ (startupLoop derive rnd n).idMap, e.1 ≠ slotString derive (n + 1) := by
      intro e he heq
      obtain ⟨i, h1, h2, h3⟩ := startupLoop_idMap_entries derive rnd n (by omega) e he
      subst h3
      have := hinj i (n + 1) h1 (by omega) (by omega) hn heq
      omega
    refine ⟨by rw [mapSet_length_of_absent _ _ _ habsent, hlen], ?_⟩
    intro i h1 h2
    by_cases hi : i ≤ n
    · have hne : slotString derive (n + 1) ≠ slotString derive i := by
        intro heq
        have := hinj (n + 1) i (by omega) hn h1 (by omega) heq
        omega
      rw [mapGet_mapSet_of_ne _ _ _ _ hne]
      exact hget i h1 hi
    · have : i = n + 1 := by omega
      subst this
      exact mapGet_mapSet_self _ _ _

theorem toHex_slot_seeds_distinct : ∀ i j : Nat, 1 ≤ i → i ≤ 255 → 1 ≤ j → j ≤ 255 →
    toHex (i :: List.replicate 31 0) = toHex (j :: List.replicate 31 0) → i = j := by
  intro i j _ hi _ hj h
  have hs := fromHex_toHex _ (seed_isBuffer i hi).2
  have ht := fromHex_toHex _ (seed_isBuffer j hj).2
  rw [h, ht] at hs
  exact (List.cons.inj hs).1.symm

/-- C3: for `1 ≤ id ≤ 255` the seed that `generatePeerId(id)` hands to key
derivation has 32 bytes, byte 0 equal to `id` and the other 31 bytes zero, and
the identity returned is the one derived from exactly that buffer; the random
source is not consulted, so the seed and the identity are the same whatever the
random source would have answered. -/
theorem generatePeerId_seed_fixed (derive : List Nat → String) (rnd rnd' : List Nat)
    (ref : Nat) (id : Int) (h1 : 1 ≤ id) (h2 : id ≤ 255) :
    (generatePeerId derive rnd ref id).str = derive (id.toNat :: List.replicate 31 0) ∧
      (generatePeerId derive rnd ref id).ref = ref ∧
      (id.toNat :: List.replicate 31 0).length = 32 ∧
      ((id.toNat : Nat) : Int) = id ∧
      (chooseSeed rnd id).seed.length = 32 ∧
      (chooseSeed rnd id).seed = id.toNat :: List.replicate 31 0 ∧
      (chooseSeed rnd id).usedRandom = false ∧
      chooseSeed rnd id = chooseSeed rnd' id ∧
      generatePeerId derive rnd ref id = generatePeerId derive rnd' ref id := by
  have h := chooseSeed_inRange rnd id h1 h2
  have h' := chooseSeed_inRange rnd' id h1 h2
  refine ⟨by simp [generatePeerId, h], rfl, by simp, by omega, by simp [h], by simp [h],
    by simp [h], by rw [h, h'], ?_⟩
  simp [generatePeerId, h, h']

theorem generatePeerId_seed_fixed_witness :
    (generatePeerId toHex [7, 7, 7] 1 200).str =
        toHex ((200 : Int).toNat :: List.replicate 31 0) ∧
      (generatePeerId toHex [7, 7, 7] 1 200).ref = 1 ∧
      ((200 : Int).toNat :: List.replicate 31 0).length = 32 ∧
      (((200 : Int).toNat : Nat) : Int) = 200 ∧
      (chooseSeed [7, 7, 7] 200).seed.length = 32 ∧
      (chooseSeed [7, 7, 7] 200).seed = (200 : Int).toNat :: List.replicate 31 0 ∧
      (chooseSeed [7, 7, 7] 200).usedRandom = false ∧
      chooseSeed [7, 7, 7] 200 = chooseSeed [] 200 ∧
      generatePeerId toHex [7, 7, 7] 1 200 = generatePeerId toHex [] 1 200 :=
  generatePeerId_seed_fixed toHex [7, 7, 7] [] 1 200 (by decide) (by decide)

/-- C4: when key derivation followed by `toString` sends the seeds of distinct
ids in 1..255 (the buffers `id, 0, ..., 0`) to distinct strings, the start-up
loop leaves `idMap` with exactly 255 entries and
`idMap.get(peerIdList[id].toString())` is `id` for every `id` in 1..255. -/
theorem startup_idMap_inverts_peerIdList (derive : List Nat → String) (rnd : Nat → List Nat)
    (hinj : ∀ i j : Nat, 1 ≤ i → i ≤ 255 → 1 ≤ j → j ≤ 255 →
      derive (i :: List.replicate 31 0) = derive (j :: List.replicate 31 0) → i = j) :
    (startup derive rnd).idMap.length = 255 ∧
      ∀ id : Int, 1 ≤ id → id ≤ 255 →
        ∃ p : PeerId, arrayGet (startup derive rnd).peerIdList id = Slot.peer p ∧
          mapGet (startup derive rnd).idMap p.str = some id := by
  obtain ⟨hlen, hget⟩ := startupLoop_idMap_get derive rnd hinj 255 (le_refl _)
  obtain ⟨_, hslot⟩ := startupLoop_peerIdList derive rnd 255 (le_refl _)
  refine ⟨hlen, ?_⟩
  intro id h1 h2
  obtain ⟨i, rfl⟩ : ∃ i : Nat, id = (i : Int) := ⟨id.toNat, by omega⟩
  refine ⟨{ ref := i, str := slotString derive i }, ?_, ?_⟩
  · have h0 : (0 : Int) ≤ (i : Int) := by omega
    simp only [arrayGet, h0, if_true, Int.toNat_ofNat, startup]
    exact hslot i (by omega) (by omega)
  · exact hget i (by omega) (by omega)

theorem startup_idMap_inverts_peerIdList_witness :
    (∀ i j : Nat, 1 ≤ i → i ≤ 255 → 1 ≤ j → j ≤ 255 →
        toHex (i :: List.replicate 31 0) = toHex (j :: List.replicate 31 0) → i = j) ∧
      (startup toHex (fun _ => [])).idMap.length = 255 ∧
      ∀ id : Int, 1 ≤ id → id ≤ 255 →
        ∃ p : PeerId, arrayGet (startup toHex (fun _ => [])).peerIdList id = Slot.peer p ∧
          mapGet (startup toHex (fun _ => [])).idMap p.str = some id :=
  ⟨toHex_slot_seeds_distinct,
    startup_idMap_inverts_peerIdList toHex (fun _ => []) toHex_slot_seeds_distinct⟩

/-! ## Lines: lemmas -/

theorem string_append_left_ne (a x y : String) (h : x.data ≠ y.data) : a ++ x ≠ a ++ y := by
  intro heq
  have := congrArg String.data heq
  simp only [String.data_append] at this
  exact h (List.append_cancel_left this)

/-- The timeout report and the dial-failure report of one `openChannel` differ. -/
theorem timeout_line_ne_failure_line (id : Int) (peer text : String) :
    toString id ++ ":: error " ++ ("timed out opening channel to " ++ peer) ≠
      toString id ++ ":: error " ++ ("opening channel to " ++ peer) ++ ": " ++ text := by
  rw [String.append_assoc (toString id ++ ":: error "), String.append_assoc (toString id ++ ":: error ")]
  apply string_append_left_ne
  simp only [String.data_append]
  intro h
  simp only [List.cons_append, List.cons.injEq] at h
  exact absurd h.1 (by decide)

/-- The disconnect notice and the read-error report for one channel differ. -/
theorem disconnect_line_ne_error_line (id : Int) (text : String) :
    toString id ++ ":: remote disconnected" ≠
      toString id ++ ":: error " ++ "reading message" ++ ": " ++ text := by
  rw [String.append_assoc (toString id), String.append_assoc (toString id),
    String.append_assoc (toString id)]
  apply string_append_left_ne
  simp only [String.data_append]
  intro h
  simp only [List.cons_append, List.cons.injEq] at h
  exact absurd h.2.2.2.1 (by decide)

/-! ## The active-channel table: lemmas -/

theorem run_append (env : Env) (evs : List Event) (ev : Event) :
    run env (evs ++ [ev]) = step env (run env evs) ev := by
  simp [run, List.foldl_append]

/-- Induction over the tables reached from the empty one. -/
theorem run_invariant (env : Env) (P : Table → Prop) (h0 : P [])
    (hstep : ∀ t ev, P t → P (step env t ev)) (evs : List Event) : P (run env evs) := by
  induction evs using List.reverseRecOn with
  | nil => exact h0
  | append_singleton evs ev ih =>
    rw [run_append]
    exact hstep _ ev ih

theorem step_cases (env : Env) (t : Table) (ev : Event) :
    step env t ev = t ∨ ∃ (k : Key) (ch : Channel), (∀ n, k ≠ Key.num n) ∧
      step env t ev = mapSet t k ch := by
  cases ev with
  | opened id out =>
    cases out with
    | addrThrows p => exact Or.inl rfl
    | rejected a p => exact Or.inl rfl
    | resolved s =>
      refine Or.inr ⟨(arrayGet env.peerIdList id).key, ⟨s, id⟩, ?_, rfl⟩
      intro n
      cases arrayGet env.peerIdList id <;> simp [Slot.key]
  | inbound rp s reads =>
    exact Or.inr ⟨Key.obj rp.ref, _, fun n => by simp, rfl⟩

/-- No key of a reachable table is a number. -/
theorem run_no_num_key (env : Env) (evs : List Event) :
    ∀ e ∈ run env evs, ∀ n : Int, e.1 ≠ Key.num n := by
  refine run_invariant env (fun t => ∀ e ∈ t, ∀ n : Int, e.1 ≠ Key.num n) ?_ ?_ evs
  · intro e he; simp at he
  · intro t ev ih e he n
    rcases step_cases env t ev with h | ⟨k, ch, hk, h⟩
    · rw [h] at he; exact ih e he n
    · rw [h] at he
      rcases mem_of_mem_mapSet _ _ _ _ he with h' | h'
      · rw [h']; exact hk n
      · exact ih e h' n

theorem run_get_num (env : Env) (evs : List Event) (id : Int) :
    mapGet (run env evs) (Key.num id) = none :=
  mapGet_eq_none_of_absent _ _ (fun e he => run_no_num_key env evs e he id)

theorem mapSet_keys_nodup {K V : Type} [DecidableEq K] (m : List (K × V)) (k : K) (v : V)
    (h : (m.map Prod.fst).Nodup) : ((mapSet m k v).map Prod.fst).Nodup := by
  induction m with
  | nil => simp [mapSet]
  | cons e rest ih =>
    obtain ⟨k0, v0⟩ := e
    simp only [List.map_cons, List.nodup_cons] at h
    by_cases hk : k0 = k
    · subst hk
      simpa [mapSet] using h
    · simp only [mapSet, hk, if_false, List.map_cons, List.nodup_cons]
      refine ⟨?_, ih h.2⟩
      intro hmem
      obtain ⟨e, he, hfst⟩ := List.mem_map.mp hmem
      rcases mem_of_mem_mapSet _ _ _ _ he with h' | h'
      · rw [h'] at hfst; exact hk hfst.symm
      · exact h.1 (List.mem_map.mpr ⟨e, h', hfst⟩)

theorem run_keys_nodup (env : Env) (evs : List Event) :
    ((run env evs).map Prod.fst).Nodup := by
  refine run_invariant env (fun t => (t.map Prod.fst).Nodup) (by simp) ?_ evs
  intro t ev ih
  rcases step_cases env t ev with h | ⟨k, ch, _, h⟩
  · rw [h]; exact ih
  · rw [h]; exact mapSet_keys_nodup _ _ _ ih

/-- In a list with distinct keys, at most one entry has a given key. -/
theorem filter_key_length_le_one {K V : Type} [DecidableEq K] (m : List (K × V)) (k : K)
    (h : (m.map Prod.fst).Nodup) : (m.filter (fun e => decide (e.1 = k))).length ≤ 1 := by
  induction m with
  | nil => simp
  | cons e rest ih =>
    obtain ⟨k0, v0⟩ := e
    simp only [List.map_cons, List.nodup_cons] at h
    by_cases hk : k0 = k
    · subst hk
      have hnone : rest.filter (fun e => decide (e.1 = k0)) = [] := by
        rw [List.filter_eq_nil_iff]
        intro e he
        simp only [decide_eq_true_eq]
        intro heq
        exact h.1 (List.mem_map.mpr ⟨e, he, heq⟩)
      simp [List.filter_cons, hnone]
    · simpa [List.filter_cons, hk] using ih h.2

theorem filter_length_le_of_imp {α : Type} (l : List α) (p q : α → Bool)
    (h : ∀ a ∈ l, p a = true → q a = true) : (l.filter p).length ≤ (l.filter q).length := by
  induction l with
  | nil => simp
  | cons a rest ih =>
    have hr := ih (fun x hx => h x (List.mem_cons_of_mem _ hx))
    have ha := h a (List.mem_cons_self _ _)
    cases hp : p a with
    | true => simp [List.filter_cons, hp, ha hp, hr]
    | false =>
      cases hq : q a with
      | true =>
        simp only [List.filter_cons, hp, hq, if_true, List.length_cons, Bool.false_eq_true,
          if_false]
        omega
      | false => simpa [List.filter_cons, hp, hq] using hr

/-- After outbound opens alone, every entry sits under the key of its id's slot. -/
theorem run_opened_key (env : Env) (opens : List (Int × DialOutcome)) :
    ∀ e ∈ run env (opens.map (fun o => Event.opened o.1 o.2)),
      e.1 = (arrayGet env.peerIdList e.2.id).key := by
  induction opens using List.reverseRecOn with
  | nil => intro e he; simp [run] at he
  | append_singleton opens o ih =>
    intro e he
    rw [List.map_append, List.map_singleton, run_append] at he
    obtain ⟨id, out⟩ := o
    cases out with
    | addrThrows p => exact ih e he
    | rejected a p => exact ih e he
    | resolved s =>
      rcases mem_of_mem_mapSet _ _ _ _ he with h | h
      · rw [h]
      · exact ih e h

theorem App_idMap (derive : List Nat → String) (rnd : Nat → List Nat)
    (fromString : String → List Nat) (toStr : List Nat → String) :
    (App derive rnd fromString toStr).idMap = (startupLoop derive rnd 255).idMap := by
  simp only [App, startup]

theorem sampleEnv_idMap_miss (s : String) (h : s.length ≠ 64) :
    mapGet sampleEnv.idMap s = none := by
  apply mapGet_eq_none_of_absent
  intro e he heq
  unfold sampleEnv at he
  rw [App_idMap] at he
  obtain ⟨i, _, h2, h3⟩ := startupLoop_idMap_entries toHex (fun _ => []) 255 (le_refl _) e he
  subst h3
  apply h
  rw [← heq]
  show (toHex (i :: List.replicate 31 0)).length = 64
  rw [toHex_length _ (seed_isBuffer i h2).2]
  simp

/-- C2 (counterexample): two inbound streams from two identities unknown to
`idMap` leave two entries whose channel has id -1. -/
theorem activeChannels_two_entries_one_id :
    ¬ (entriesWithId (run sampleEnv
        [Event.inbound { ref := 1000, str := "A" } 1 [],
         Event.inbound { ref := 1001, str := "B" } 2 []]) (-1) ≤ 1) := by
  have hA := sampleEnv_idMap_miss "A" (by decide)
  have hB := sampleEnv_idMap_miss "B" (by decide)
  simp [run, step, handleWhatever, hA, hB, mapSet, entriesWithId]

/-- C2 (amended): in every table reached from the empty one by outbound opens and
inbound arrivals no two entries share a key (the peer identity object); when the
table is reached by outbound opens alone, every numeric id has at most one entry
whose channel has that id. -/
theorem activeChannels_at_most_one_per_key (env : Env) (events : List Event)
    (opens : List (Int × DialOutcome)) (id : Int) :
    ((run env events).map Prod.fst).Nodup ∧
      entriesWithId (run env (opens.map (fun o => Event.opened o.1 o.2))) id ≤ 1 := by
  refine ⟨run_keys_nodup env events, ?_⟩
  refine le_trans (filter_length_le_of_imp _ _
    (fun e => decide (e.1 = (arrayGet env.peerIdList id).key)) ?_)
    (filter_key_length_le_one _ _ (run_keys_nodup env _))
  intro e he hid
  simp only [decide_eq_true_eq] at hid ⊢
  rw [run_opened_key env opens e he, hid]

/-- C1 (the code at the failing input): with a channel to `id` registered by a
successful `openChannel(id)` on stream `s1`, the lookup `activeChannels.get(id)`
of `sendMsg` misses, because the table is keyed by identity objects and not by
numbers; `sendMsg(id, msg)` dials again and writes on the newly dialled stream. -/
theorem sendMsg_redials_registered_id (env : Env) (events : List Event) (id : Int)
    (msg : String) (s1 s2 : Nat) (writeFails : Option Problem) :
    ((arrayGet env.peerIdList id).key, ({ msgStream := s1, id := id } : Channel)) ∈
        run env (events ++ [Event.opened id (DialOutcome.resolved s1)]) ∧
      mapGet (run env (events ++ [Event.opened id (DialOutcome.resolved s1)])) (Key.num id) = none ∧
      (sendMsg env (run env (events ++ [Event.opened id (DialOutcome.resolved s1)])) id msg
          (DialOutcome.resolved s2) writeFails).effects =
        [Effect.line ("connecting to id:" ++ toString id ++ " peerId:" ++
            (arrayGet env.peerIdList id).text),
          Effect.dialProtocol (env.relayAddr ++ "/p2p-circuit/webrtc/p2p/" ++
            (arrayGet env.peerIdList id).text) "whatever",
          Effect.startRead { msgStream := s2, id := id }] ++
        writeMessage env id (some { msgStream := s2, id := id }) msg writeFails := by
  refine ⟨?_, run_get_num env _ id, ?_⟩
  · rw [run_append]
    exact mem_of_mapGet _ _ _ (mapGet_mapSet_self _ _ _)
  · simp [sendMsg, run_get_num, openChannel, outputLine, startReadLoop]

/-- C5 (the code at the failing input): when the dial of `sendMsg(id, msg)` is
rejected, `openChannel` reports the open failure and returns `null`; `sendMsg`
then issues no write, but its last `try` catches the `TypeError` of
`channel.msgStream` and reports a `sending message` error for `id` as well. -/
theorem sendMsg_dial_failure_reports_twice (env : Env) (events : List Event) (id : Int)
    (msg : String) (aborted : Bool) (problem : Problem) (writeFails : Option Problem) :
    (sendMsg env (run env events) id msg (DialOutcome.rejected aborted problem) writeFails).effects =
      [Effect.line ("connecting to id:" ++ toString id ++ " peerId:" ++
          (arrayGet env.peerIdList id).text),
        Effect.dialProtocol (env.relayAddr ++ "/p2p-circuit/webrtc/p2p/" ++
          (arrayGet env.peerIdList id).text) "whatever",
        Effect.line (if aborted then
            toString id ++ ":: error " ++
              ("timed out opening channel to " ++ (arrayGet env.peerIdList id).text)
          else
            toString id ++ ":: error " ++
              ("opening channel to " ++ (arrayGet env.peerIdList id).text) ++ ": " ++ problem.text),
        Effect.line (toString id ++ ":: error " ++ "sending message" ++ ": " ++
          nullChannelError.text)] := by
  cases aborted <;>
    simp [sendMsg, run_get_num, openChannel, outputLine, outputError, startReadLoop, writeMessage]

/-- C6: when the dial of `openChannel(id)` is rejected, the report is the timeout
line if the timeout signal has fired and otherwise the dial-failure line, which
ends with the transport's problem; the two lines differ; in both cases
`openChannel` returns `null` and leaves the table as it was. -/
theorem openChannel_dial_failure (env : Env) (activeChannels : Table) (id : Int)
    (problem : Problem) :
    (openChannel env activeChannels id (DialOutcome.rejected true problem)).effects =
        [Effect.line ("connecting to id:" ++ toString id ++ " peerId:" ++
            (arrayGet env.peerIdList id).text),
          Effect.dialProtocol (env.relayAddr ++ "/p2p-circuit/webrtc/p2p/" ++
            (arrayGet env.peerIdList id).text) "whatever",
          Effect.line (toString id ++ ":: error " ++
            ("timed out opening channel to " ++ (arrayGet env.peerIdList id).text))] ∧
      (openChannel env activeChannels id (DialOutcome.rejected false problem)).effects =
        [Effect.line ("connecting to id:" ++ toString id ++ " peerId:" ++
            (arrayGet env.peerIdList id).text),
          Effect.dialProtocol (env.relayAddr ++ "/p2p-circuit/webrtc/p2p/" ++
            (arrayGet env.peerIdList id).text) "whatever",
          Effect.line (toString id ++ ":: error " ++
            ("opening channel to " ++ (arrayGet env.peerIdList id).text) ++ ": " ++
            problem.text)] ∧
      toString id ++ ":: error " ++
          ("timed out opening channel to " ++ (arrayGet env.peerIdList id).text) ≠
        toString id ++ ":: error " ++
          ("opening channel to " ++ (arrayGet env.peerIdList id).text) ++ ": " ++ problem.text ∧
      (∀ aborted : Bool,
        (openChannel env activeChannels id (DialOutcome.rejected aborted problem)).table =
            activeChannels ∧
          (openChannel env activeChannels id (DialOutcome.rejected aborted problem)).result =
            Completion.returned none ∧
          entriesWithId
              (openChannel env activeChannels id (DialOutcome.rejected aborted problem)).table id =
            entriesWithId activeChannels id) := by
  refine ⟨by simp [openChannel, outputLine, outputError],
    by simp [openChannel, outputLine, outputError],
    timeout_line_ne_failure_line id _ _, ?_⟩
  intro aborted
  exact ⟨rfl, rfl, rfl⟩

theorem readChannel_frames (env : Env) (channel : Channel) (frames : List (List Nat))
    (rest : List ReadResult) :
    readChannel env channel (frames.map ReadResult.frame ++ rest) =
      { effects := frames.map (fun f =>
            Effect.line (toString channel.id ++ ":: \x27" ++ env.toString f ++ "\x27")) ++
          (readChannel env channel rest).effects
        returned := (readChannel env channel rest).returned } := by
  induction frames with
  | nil => simp
  | cons f fs ih =>
    have hstep : readChannel env channel (ReadResult.frame f :: (fs.map ReadResult.frame ++ rest)) =
        { effects := receiveMsg channel.id (env.toString f) ++
            (readChannel env channel (fs.map ReadResult.frame ++ rest)).effects
          returned := (readChannel env channel (fs.map ReadResult.frame ++ rest)).returned } := rfl
    rw [List.map_cons, List.cons_append, hstep, ih]
    simp [receiveMsg, outputMsg, outputLine]

theorem readChannel_failure_length (env : Env) (channel : Channel) (problem : Problem)
    (rest : List ReadResult) :
    (readChannel env channel (ReadResult.failure problem :: rest)).effects.length = 1 ∧
      (readChannel env channel (ReadResult.failure problem :: rest)).returned = true := by
  by_cases h : problem.errorDetail = some "sctp-failure" ∧
      problem.sctpCauseCode = some SCTP_USER_INITIATED_ABORT
  · simp [readChannel, h, outputLine]
  · simp [readChannel, h, outputLine, outputError]

/-- C7 (counterexample): a read error that carries abort-cause code 12 and whose
`errorDetail` is not `sctp-failure` gets the `reading message` error report and
not the `remote disconnected` notice. -/
theorem readChannel_code12_reported_as_error :
    code12Problem.sctpCauseCode = some 12 ∧
      (readChannel sampleEnv { msgStream := 1, id := 5 }
          [ReadResult.failure code12Problem]).effects =
        [Effect.line "5:: error reading message: Error: closed"] ∧
      (readChannel sampleEnv { msgStream := 1, id := 5 }
          [ReadResult.failure code12Problem]).effects ≠
        [Effect.line "5:: remote disconnected"] := by
  refine ⟨rfl, ?_, ?_⟩
  · simp [readChannel, code12Problem, outputError, outputLine]
    decide
  · simp [readChannel, code12Problem, outputError, outputLine]
    decide

/-- C7 (amended): for every channel and every error raised by a stream read, if
the error has `errorDetail` `sctp-failure` and abort-cause code 12 the loop emits
the `remote disconnected` notice for `channel.id`, which is not the error report;
for any other error it emits the `reading message` error for `channel.id` that
ends with the error's text; in both cases the loop returns after that one line,
whatever the stream would have answered next. -/
theorem readChannel_error_classification (env : Env) (channel : Channel) (problem : Problem)
    (rest : List ReadResult) :
    ((problem.errorDetail = some "sctp-failure" ∧ problem.sctpCauseCode = some 12) →
        readChannel env channel (ReadResult.failure problem :: rest) =
          { effects := [Effect.line (toString channel.id ++ ":: remote disconnected")]
            returned := true }) ∧
      (¬ (problem.errorDetail = some "sctp-failure" ∧ problem.sctpCauseCode = some 12) →
        readChannel env channel (ReadResult.failure problem :: rest) =
          { effects := [Effect.line (toString channel.id ++ ":: error " ++ "reading message" ++
              ": " ++ problem.text)]
            returned := true }) ∧
      toString channel.id ++ ":: remote disconnected" ≠
        toString channel.id ++ ":: error " ++ "reading message" ++ ": " ++ problem.text ∧
      (readChannel env channel (ReadResult.failure problem :: rest)).effects.length = 1 ∧
      (readChannel env channel (ReadResult.failure problem :: rest)).returned = true := by
  refine ⟨?_, ?_, disconnect_line_ne_error_line _ _,
    (readChannel_failure_length env channel problem rest).1,
    (readChannel_failure_length env channel problem rest).2⟩
  · intro h
    simp [readChannel, SCTP_USER_INITIATED_ABORT, h.1, h.2, outputLine]
  · intro h
    have h' : ¬ (problem.errorDetail = some "sctp-failure" ∧
        problem.sctpCauseCode = some SCTP_USER_INITIATED_ABORT) := h
    simp only [readChannel, h', if_false, outputError, outputLine]

theorem readChannel_error_classification_witness :
    (abortProblem.errorDetail = some "sctp-failure" ∧ abortProblem.sctpCauseCode = some 12) ∧
      readChannel sampleEnv { msgStream := 1, id := 5 } [ReadResult.failure abortProblem] =
        { effects := [Effect.line (toString (5 : Int) ++ ":: remote disconnected")]
          returned := true } ∧
      ¬ (code12Problem.errorDetail = some "sctp-failure" ∧
          code12Problem.sctpCauseCode = some 12) ∧
      readChannel sampleEnv { msgStream := 1, id := 5 } [ReadResult.failure code12Problem] =
        { effects := [Effect.line (toString (5 : Int) ++ ":: error " ++ "reading message" ++
            ": " ++ code12Problem.text)]
          returned := true } :=
  ⟨by decide,
    (readChannel_error_classification sampleEnv { msgStream := 1, id := 5 } abortProblem []).1
      (by decide),
    by decide,
    (readChannel_error_classification sampleEnv { msgStream := 1, id := 5 } code12Problem []).2.1
      (by decide)⟩

/-- C8: for a stream that yields the frames `f1..fn` and then fails, `readChannel`
emits exactly `n` message lines, the `k`-th being `receiveMsg(channel.id, text of
fk)`, in arrival order, followed by its single terminating report, and returns. -/
theorem readChannel_delivers_in_order (env : Env) (channel : Channel) (frames : List (List Nat))
    (problem : Problem) :
    (readChannel env channel
        (frames.map ReadResult.frame ++ [ReadResult.failure problem])).effects =
      frames.flatMap (fun f => receiveMsg channel.id (env.toString f)) ++
        (readChannel env channel [ReadResult.failure problem]).effects ∧
      frames.flatMap (fun f => receiveMsg channel.id (env.toString f)) =
        frames.map (fun f =>
          Effect.line (toString channel.id ++ ":: \x27" ++ env.toString f ++ "\x27")) ∧
      (frames.map (fun f =>
          Effect.line (toString channel.id ++ ":: \x27" ++ env.toString f ++ "\x27"))).length =
        frames.length ∧
      (readChannel env channel [ReadResult.failure problem]).effects.length = 1 ∧
      (readChannel env channel
        (frames.map ReadResult.frame ++ [ReadResult.failure problem])).returned = true := by
  have hflat : frames.flatMap (fun f => receiveMsg channel.id (env.toString f)) =
      frames.map (fun f =>
        Effect.line (toString channel.id ++ ":: \x27" ++ env.toString f ++ "\x27")) := by
    induction frames with
    | nil => rfl
    | cons f fs ih =>
      rw [List.flatMap_cons, ih]
      simp [receiveMsg, outputMsg, outputLine]
  refine ⟨?_, hflat, by simp, (readChannel_failure_length env channel problem []).1, ?_⟩
  · rw [readChannel_frames, hflat]
  · rw [readChannel_frames]
    exact (readChannel_failure_length env channel problem []).2

/-- C9: the handler gives the channel the id that `idMap` holds for the remote
identity's string, an id in 1..255, and on a miss the sentinel -1, which is not in
1..255 and indexes no slot; on a miss it still reports the inbound connection,
registers the channel under the remote identity and runs the read loop. -/
theorem handleWhatever_resolves_id (derive : List Nat → String) (rnd : Nat → List Nat)
    (fromString : String → List Nat) (toStr : List Nat → String) (activeChannels : Table)
    (remotePeer : PeerId) (stream : Nat) (reads : List ReadResult) :
    (∀ v : Int, mapGet (App derive rnd fromString toStr).idMap remotePeer.str = some v →
        (handleWhatever (App derive rnd fromString toStr) activeChannels remotePeer stream
          reads).channel.id = v ∧ 1 ≤ v ∧ v ≤ 255) ∧
      (mapGet (App derive rnd fromString toStr).idMap remotePeer.str = none →
        (handleWhatever (App derive rnd fromString toStr) activeChannels remotePeer stream
            reads).channel = { msgStream := stream, id := -1 } ∧
          (handleWhatever (App derive rnd fromString toStr) activeChannels remotePeer stream
            reads).effects =
            Effect.line ("inbound connection from id:" ++ toString (-1 : Int) ++ " peerId:" ++
                remotePeer.str) ::
              (readChannel (App derive rnd fromString toStr) { msgStream := stream, id := -1 }
                reads).effects ∧
          mapGet (handleWhatever (App derive rnd fromString toStr) activeChannels remotePeer stream
            reads).table (Key.obj remotePeer.ref) = some { msgStream := stream, id := -1 } ∧
          (handleWhatever (App derive rnd fromString toStr) activeChannels remotePeer stream
            reads).returned =
            (readChannel (App derive rnd fromString toStr) { msgStream := stream, id := -1 }
              reads).returned) ∧
      ¬ (1 ≤ (-1 : Int) ∧ (-1 : Int) ≤ 255) ∧
      arrayGet (App derive rnd fromString toStr).peerIdList (-1) = Slot.undefined := by
  refine ⟨?_, ?_, by omega, by simp [arrayGet]⟩
  · intro v hv
    have hmem := mem_of_mapGet _ _ _ hv
    rw [App_idMap] at hmem
    obtain ⟨i, h1, h2, h3⟩ := startupLoop_idMap_entries derive rnd 255 (le_refl _) _ hmem
    have hvi : v = (i : Int) := (Prod.mk.inj h3).2
    refine ⟨by simp [handleWhatever, hv], by omega, by omega⟩
  · intro hnone
    refine ⟨by simp [handleWhatever, hnone], by simp [handleWhatever, hnone, outputLine], ?_,
      by simp [handleWhatever, hnone]⟩
    simp only [handleWhatever, hnone, Option.getD_none]
    exact mapGet_mapSet_self _ _ _

theorem handleWhatever_resolves_id_witness :
    mapGet (App toHex (fun _ => []) (fun s => s.data.map Char.toNat)
        (fun b => String.mk (b.map Char.ofNat))).idMap
        ({ ref := 1000, str := "A" } : PeerId).str = none ∧
      (handleWhatever (App toHex (fun _ => []) (fun s => s.data.map Char.toNat)
          (fun b => String.mk (b.map Char.ofNat))) [] { ref := 1000, str := "A" } 3
          []).channel = { msgStream := 3, id := -1 } ∧
      mapGet (App toHex (fun _ => []) (fun s => s.data.map Char.toNat)
        (fun b => String.mk (b.map Char.ofNat))).idMap
        ({ ref := 1001, str := slotString toHex 7 } : PeerId).str = some 7 ∧
      (handleWhatever (App toHex (fun _ => []) (fun s => s.data.map Char.toNat)
          (fun b => String.mk (b.map Char.ofNat))) [] { ref := 1001, str := slotString toHex 7 } 4
          []).channel.id = 7 :=
  have hmiss := sampleEnv_idMap_miss "A" (by decide)
  have hhit : mapGet (App toHex (fun _ => []) (fun s => s.data.map Char.toNat)
      (fun b => String.mk (b.map Char.ofNat))).idMap (slotString toHex 7) = some 7 := by
    rw [App_idMap]
    exact (startupLoop_idMap_get toHex (fun _ => []) toHex_slot_seeds_distinct 255 (le_refl _)).2 7
      (by decide) (by decide)
  ⟨hmiss,
    ((handleWhatever_resolves_id toHex (fun _ => []) (fun s => s.data.map Char.toNat)
      (fun b => String.mk (b.map Char.ofNat)) [] { ref := 1000, str := "A" } 3 []).2.1 hmiss).1,
    hhit,
    ((handleWhatever_resolves_id toHex (fun _ => []) (fun s => s.data.map Char.toNat)
      (fun b => String.mk (b.map Char.ofNat)) [] { ref := 1001, str := slotString toHex 7 } 4
      []).1 7 hhit).1⟩

end Brow2Brow
